import Mathlib

/-!
# JNI reflection shim: `Java_org_graalvm_example_JNIExample_jniCallDoingReflection`

A shallow embedding of the single native function of
`metadata-in-code/app/src/main/cpp/org_graalvm_example_JNIExampleJNI.cpp`.

The function receives a `JNIEnv *env` and talks to the managed runtime only
through the JNI function table.  The runtime itself (jni.h and the JVM behind
it) is not part of the source, so it is a parameter of the embedding: a record
`JNIEnv σ` of state transformers over an arbitrary managed state `σ`.  Every
call made through the table is appended, with its arguments and its return
value, to a trace, so that the sequence of runtime calls can be stated.

Machine integers: `jint` is a 32-bit signed integer, embedded as `Int`.
The source adds two `jint` values with the signed `+` of C++, which is exact
when the sum is representable and undefined when it is not.  `jint_add` is
that `+` in a build where signed addition wraps (two-complement, the explicit
`wrap32`); `jint_add_under` leaves the overflowing case to a parameter, the
behaviour of the build.
-/

namespace JNIExample

/-! ## Data model -/

/-- The type `jint` of jni.h: a 32-bit signed integer, carried as an `Int`. -/
abbrev jint := Int

/-- The type `jclass` of jni.h: a pointer, carried as an address; `NULL` is `0`. -/
abbrev jclass := Nat

/-- The type `jfieldID` of jni.h: a pointer, carried as an address. -/
abbrev jfieldID := Nat

/-- The type `jmethodID` of jni.h: a pointer, carried as an address. -/
abbrev jmethodID := Nat

/-- The type `jthrowable` of jni.h: a pointer, carried as an address. -/
abbrev jthrowable := Nat

/-- The null handle. -/
def NULL : Nat := 0

/-- Least value of a 32-bit signed integer. -/
def INT32_MIN : Int := -2147483648

/-- Greatest value of a 32-bit signed integer. -/
def INT32_MAX : Int := 2147483647

/-- Membership in the range of a 32-bit signed integer. -/
def InInt32 (x : Int) : Prop := INT32_MIN ≤ x ∧ x ≤ INT32_MAX

instance (x : Int) : Decidable (InInt32 x) := by
  unfold InInt32; exact inferInstance

/-- Reduction of a mathematical integer to 32-bit two-complement. -/
def wrap32 (x : Int) : Int := (x + 2147483648) % 4294967296 - 2147483648

/-- The operator `+` on two `jint` values in a build where signed addition
wraps: exact when the sum is representable, the two-complement residue when it
is not.  The source itself leaves the second case undefined; see
`jint_add_under`. -/
def jint_add (a b : jint) : jint := wrap32 (a + b)

/-- What a build does with a signed `jint` sum that is not representable,
given the mathematical sum: the value the addition yields, or `none` when
execution does not go on to return a value (a trap). -/
abbrev OverflowBehaviour := Int → Option jint

/-- The build in which signed addition wraps to two-complement. -/
def wrapping : OverflowBehaviour := fun x => some (wrap32 x)

/-- The build in which signed overflow traps. -/
def trapping : OverflowBehaviour := fun _ => none

/-- The signed operator `+` of C++ on two `jint` values: the exact sum when it
is representable; otherwise the language defines nothing and the outcome is the
one of the build, `ov`. -/
def jint_add_under (ov : OverflowBehaviour) (a b : jint) : Option jint :=
  if InInt32 (a + b) then some (a + b) else ov (a + b)

/-- The entries of the JNI function table that matter here: the five the
function calls, and the ones it could have used to write a static field or to
inspect or clear a pending exception.  Each entry is a transformer of the
managed state `σ` that also yields the value the runtime returns. -/
structure JNIEnv (σ : Type) where
  FindClass : String → σ → jclass × σ
  GetStaticFieldID : jclass → String → String → σ → jfieldID × σ
  GetStaticMethodID : jclass → String → String → σ → jmethodID × σ
  GetStaticIntField : jclass → jfieldID → σ → jint × σ
  CallStaticIntMethod : jclass → jmethodID → List jint → σ → jint × σ
  SetStaticIntField : jclass → jfieldID → jint → σ → σ
  ExceptionCheck : σ → Bool × σ
  ExceptionOccurred : σ → jthrowable × σ
  ExceptionDescribe : σ → σ
  ExceptionClear : σ → σ

/-- Names of the JNI functions of the table. -/
inductive JNIFunction where
  | FindClass
  | GetStaticFieldID
  | GetStaticMethodID
  | GetStaticIntField
  | CallStaticIntMethod
  | SetStaticIntField
  | ExceptionCheck
  | ExceptionOccurred
  | ExceptionDescribe
  | ExceptionClear
  deriving DecidableEq, Repr

/-- One call through the JNI function table: the function, the arguments it
was given, and the value it returned (`ret`). -/
inductive JNIEvent where
  | FindClass (name : String) (ret : jclass)
  | GetStaticFieldID (clazz : jclass) (name : String) (sig : String) (ret : jfieldID)
  | GetStaticMethodID (clazz : jclass) (name : String) (sig : String) (ret : jmethodID)
  | GetStaticIntField (clazz : jclass) (fieldID : jfieldID) (ret : jint)
  | CallStaticIntMethod (clazz : jclass) (methodID : jmethodID) (args : List jint) (ret : jint)
  | SetStaticIntField (clazz : jclass) (fieldID : jfieldID) (value : jint)
  | ExceptionCheck (ret : Bool)
  | ExceptionOccurred (ret : jthrowable)
  | ExceptionDescribe
  | ExceptionClear
  deriving DecidableEq, Repr

/-- The JNI function an event is a call of. -/
def JNIEvent.function : JNIEvent → JNIFunction
  | .FindClass _ _ => .FindClass
  | .GetStaticFieldID _ _ _ _ => .GetStaticFieldID
  | .GetStaticMethodID _ _ _ _ => .GetStaticMethodID
  | .GetStaticIntField _ _ _ => .GetStaticIntField
  | .CallStaticIntMethod _ _ _ _ => .CallStaticIntMethod
  | .SetStaticIntField _ _ _ => .SetStaticIntField
  | .ExceptionCheck _ => .ExceptionCheck
  | .ExceptionOccurred _ => .ExceptionOccurred
  | .ExceptionDescribe => .ExceptionDescribe
  | .ExceptionClear => .ExceptionClear

/-- A name-based lookup request sent to the runtime. -/
inductive Lookup where
  | class_ (name : String)
  | field (name : String) (sig : String)
  | method (name : String) (sig : String)
  deriving DecidableEq, Repr

/-- The lookup request carried by an event, when the event is a lookup. -/
def JNIEvent.lookup : JNIEvent → Option Lookup
  | .FindClass n _ => some (.class_ n)
  | .GetStaticFieldID _ n s _ => some (.field n s)
  | .GetStaticMethodID _ n s _ => some (.method n s)
  | _ => none

/-- Whether an event writes a static field. -/
def JNIEvent.writesField : JNIEvent → Bool
  | .SetStaticIntField _ _ _ => true
  | _ => false

/-- Whether an event queries, reports or clears the pending-exception state. -/
def JNIEvent.touchesException : JNIEvent → Bool
  | .ExceptionCheck _ => true
  | .ExceptionOccurred _ => true
  | .ExceptionDescribe => true
  | .ExceptionClear => true
  | _ => false

/-! ## Execution model -/

/-- The configuration a native function runs in: the managed state and the
trace of the runtime calls made so far. -/
structure Config (σ : Type) where
  state : σ
  trace : List JNIEvent

/-- Native computations that call into the runtime: state passing over
`Config σ`. -/
def JNI (σ : Type) (α : Type) : Type := Config σ → α × Config σ

instance (σ : Type) : Monad (JNI σ) where
  pure a := fun c => (a, c)
  bind m f := fun c => f (m c).1 (m c).2

/-- The call `env->FindClass(name)`. -/
def FindClass {σ : Type} (env : JNIEnv σ) (name : String) : JNI σ jclass :=
  fun c =>
    ((env.FindClass name c.state).1,
     ⟨(env.FindClass name c.state).2,
      c.trace ++ [.FindClass name (env.FindClass name c.state).1]⟩)

/-- The call `env->GetStaticFieldID(clazz, name, sig)`. -/
def GetStaticFieldID {σ : Type} (env : JNIEnv σ) (clazz : jclass) (name sig : String) :
    JNI σ jfieldID :=
  fun c =>
    ((env.GetStaticFieldID clazz name sig c.state).1,
     ⟨(env.GetStaticFieldID clazz name sig c.state).2,
      c.trace ++ [.GetStaticFieldID clazz name sig
        (env.GetStaticFieldID clazz name sig c.state).1]⟩)

/-- The call `env->GetStaticMethodID(clazz, name, sig)`. -/
def GetStaticMethodID {σ : Type} (env : JNIEnv σ) (clazz : jclass) (name sig : String) :
    JNI σ jmethodID :=
  fun c =>
    ((env.GetStaticMethodID clazz name sig c.state).1,
     ⟨(env.GetStaticMethodID clazz name sig c.state).2,
      c.trace ++ [.GetStaticMethodID clazz name sig
        (env.GetStaticMethodID clazz name sig c.state).1]⟩)

/-- The call `env->GetStaticIntField(clazz, fieldID)`. -/
def GetStaticIntField {σ : Type} (env : JNIEnv σ) (clazz : jclass) (fieldID : jfieldID) :
    JNI σ jint :=
  fun c =>
    ((env.GetStaticIntField clazz fieldID c.state).1,
     ⟨(env.GetStaticIntField clazz fieldID c.state).2,
      c.trace ++ [.GetStaticIntField clazz fieldID
        (env.GetStaticIntField clazz fieldID c.state).1]⟩)

/-- The variadic call `env->CallStaticIntMethod(clazz, methodID, args...)`. -/
def CallStaticIntMethod {σ : Type} (env : JNIEnv σ) (clazz : jclass) (methodID : jmethodID)
    (args : List jint) : JNI σ jint :=
  fun c =>
    ((env.CallStaticIntMethod clazz methodID args c.state).1,
     ⟨(env.CallStaticIntMethod clazz methodID args c.state).2,
      c.trace ++ [.CallStaticIntMethod clazz methodID args
        (env.CallStaticIntMethod clazz methodID args c.state).1]⟩)

/-! ## The native function -/

/-- The function `Java_org_graalvm_example_JNIExample_jniCallDoingReflection`
of `org_graalvm_example_JNIExampleJNI.cpp`, statement by statement. -/
def Java_org_graalvm_example_JNIExample_jniCallDoingReflection {σ : Type}
    (env : JNIEnv σ) : JNI σ jint := do
  let jniExample ← FindClass env "org/graalvm/example/JNIExample"
  let v1Field ← GetStaticFieldID env jniExample "v1" "I"
  let v2Method ← GetStaticMethodID env jniExample "v2" "()I"
  let v1 ← GetStaticIntField env jniExample v1Field
  let v2 ← CallStaticIntMethod env jniExample v2Method []
  return jint_add v1 v2

/-- One invocation of the native function from managed state `s`, with an
empty trace: the returned value and the final configuration. -/
def jniCallDoingReflection {σ : Type} (env : JNIEnv σ) (s : σ) : jint × Config σ :=
  Java_org_graalvm_example_JNIExample_jniCallDoingReflection env ⟨s, []⟩

/-- The same function of `org_graalvm_example_JNIExampleJNI.cpp`, statement by
statement, with the signed `v1 + v2` of its last line read as C++ defines it:
exact when representable, left to the build `ov` otherwise.  The result is
`none` when the call does not return a value. -/
def Java_org_graalvm_example_JNIExample_jniCallDoingReflection_under {σ : Type}
    (ov : OverflowBehaviour) (env : JNIEnv σ) : JNI σ (Option jint) := do
  let jniExample ← FindClass env "org/graalvm/example/JNIExample"
  let v1Field ← GetStaticFieldID env jniExample "v1" "I"
  let v2Method ← GetStaticMethodID env jniExample "v2" "()I"
  let v1 ← GetStaticIntField env jniExample v1Field
  let v2 ← CallStaticIntMethod env jniExample v2Method []
  return jint_add_under ov v1 v2

/-- One invocation, in the build `ov`, from managed state `s` with an empty
trace. -/
def jniCallDoingReflectionUnder {σ : Type} (ov : OverflowBehaviour) (env : JNIEnv σ) (s : σ) :
    Option jint × Config σ :=
  Java_org_graalvm_example_JNIExample_jniCallDoingReflection_under ov env ⟨s, []⟩

/-! ## Replaying a trace against the runtime -/

/-- The effect on the managed state of the runtime call an event records. -/
def JNIEvent.effect {σ : Type} (env : JNIEnv σ) : JNIEvent → σ → σ
  | .FindClass n _, x => (env.FindClass n x).2
  | .GetStaticFieldID c n g _, x => (env.GetStaticFieldID c n g x).2
  | .GetStaticMethodID c n g _, x => (env.GetStaticMethodID c n g x).2
  | .GetStaticIntField c f _, x => (env.GetStaticIntField c f x).2
  | .CallStaticIntMethod c m as _, x => (env.CallStaticIntMethod c m as x).2
  | .SetStaticIntField c f v, x => env.SetStaticIntField c f v x
  | .ExceptionCheck _, x => (env.ExceptionCheck x).2
  | .ExceptionOccurred _, x => (env.ExceptionOccurred x).2
  | .ExceptionDescribe, x => env.ExceptionDescribe x
  | .ExceptionClear, x => env.ExceptionClear x

/-- The managed state produced by the runtime calls of a trace alone, made in
order from state `x`. -/
def replay {σ : Type} (env : JNIEnv σ) (tr : List JNIEvent) (x : σ) : σ :=
  tr.foldl (fun y e => e.effect env y) x

/-! ## A small managed runtime, used to instantiate the theorems -/

/-- Managed state of the small runtime: the value of the static field `v1` of
the one class it knows, and whether an exception is pending. -/
structure ManagedState where
  v1 : jint
  pending : Bool
  deriving DecidableEq, Repr

/-- A small runtime.  When `found` holds it knows the class
`org/graalvm/example/JNIExample` (handle `1`) with the static int field `v1`
(field ID `7`) and the static method `v2` (method ID `9`), which returns `b`
and adds `delta` to `v1`.  A failed lookup returns `NULL` and leaves an
exception pending. -/
def mockEnv (found : Bool) (b delta : jint) : JNIEnv ManagedState where
  FindClass := fun n x =>
    if found ∧ n = "org/graalvm/example/JNIExample" then (1, x)
    else (NULL, { x with pending := true })
  GetStaticFieldID := fun c n g x =>
    if c = 1 ∧ n = "v1" ∧ g = "I" then (7, x) else (NULL, { x with pending := true })
  GetStaticMethodID := fun c n g x =>
    if c = 1 ∧ n = "v2" ∧ g = "()I" then (9, x) else (NULL, { x with pending := true })
  GetStaticIntField := fun c f x =>
    if c = 1 ∧ f = 7 then (x.v1, x) else (0, x)
  CallStaticIntMethod := fun c m as x =>
    if c = 1 ∧ m = 9 ∧ as = [] then (b, { x with v1 := wrap32 (x.v1 + delta) })
    else (0, { x with pending := true })
  SetStaticIntField := fun c f v x =>
    if c = 1 ∧ f = 7 then { x with v1 := v } else x
  ExceptionCheck := fun x => (x.pending, x)
  ExceptionOccurred := fun x => (if x.pending then 1 else NULL, x)
  ExceptionDescribe := fun x => x
  ExceptionClear := fun x => { x with pending := false }

/-- The managed state in which the last runtime call of a trace is made, when
the calls of the trace are made in order from state `x`. -/
def stateBeforeLast {σ : Type} (env : JNIEnv σ) (tr : List JNIEvent) (x : σ) : σ :=
  replay env tr.dropLast x

/-- The value the static int field `f` of class `c` holds in managed state `x`:
what the runtime answers when the field is read there. -/
def fieldValue {σ : Type} (env : JNIEnv σ) (c : jclass) (f : jfieldID) (x : σ) : jint :=
  (env.GetStaticIntField c f x).1

/-! ## Arithmetic of `wrap32` -/

theorem wrap32_of_inInt32 (x : Int) (h : InInt32 x) : wrap32 x = x := by
  unfold wrap32; unfold InInt32 INT32_MIN INT32_MAX at h; omega

theorem wrap32_inInt32 (x : Int) : InInt32 (wrap32 x) := by
  unfold wrap32 InInt32 INT32_MIN INT32_MAX; omega

theorem wrap32_modEq (x : Int) : wrap32 x ≡ x [ZMOD 4294967296] := by
  unfold wrap32 Int.ModEq; omega

theorem inInt32_modEq_unique (x y : Int) (hx : InInt32 x) (hy : InInt32 y)
    (h : x ≡ y [ZMOD 4294967296]) : x = y := by
  unfold Int.ModEq at h; unfold InInt32 INT32_MIN INT32_MAX at hx hy; omega

theorem wrap32_above (x : Int) (h1 : INT32_MAX < x) (h2 : x ≤ 2 * INT32_MAX) :
    wrap32 x = x - 4294967296 := by
  unfold wrap32; unfold INT32_MAX at h1 h2; omega

theorem wrap32_below (x : Int) (h1 : x < INT32_MIN) (h2 : 2 * INT32_MIN ≤ x) :
    wrap32 x = x + 4294967296 := by
  unfold wrap32; unfold INT32_MIN at h1 h2; omega

/-! ## The run of the native function, spelled out -/

/-- The trace of one invocation, in terms of what the runtime returns. -/
theorem trace_eq {σ : Type} (env : JNIEnv σ) (s : σ) :
    ∃ (c : jclass) (f : jfieldID) (m : jmethodID) (a b : jint),
      c = (env.FindClass "org/graalvm/example/JNIExample" s).1 ∧
      (jniCallDoingReflection env s).2.trace =
        [.FindClass "org/graalvm/example/JNIExample" c,
         .GetStaticFieldID c "v1" "I" f,
         .GetStaticMethodID c "v2" "()I" m,
         .GetStaticIntField c f a,
         .CallStaticIntMethod c m [] b] ∧
      (jniCallDoingReflection env s).1 = jint_add a b :=
  ⟨_, _, _, _, _, rfl, rfl, rfl⟩

/-- One invocation step by step: the values and states the five runtime calls
yield, the trace, the result, the final state and the state in which the last
call is made. -/
theorem run_steps {σ : Type} (env : JNIEnv σ) (s : σ) :
    ∃ (c : jclass) (f : jfieldID) (m : jmethodID) (a b : jint) (s1 s2 s3 s4 s5 : σ),
      env.FindClass "org/graalvm/example/JNIExample" s = (c, s1) ∧
      env.GetStaticFieldID c "v1" "I" s1 = (f, s2) ∧
      env.GetStaticMethodID c "v2" "()I" s2 = (m, s3) ∧
      env.GetStaticIntField c f s3 = (a, s4) ∧
      env.CallStaticIntMethod c m [] s4 = (b, s5) ∧
      (jniCallDoingReflection env s).2.trace =
        [.FindClass "org/graalvm/example/JNIExample" c,
         .GetStaticFieldID c "v1" "I" f,
         .GetStaticMethodID c "v2" "()I" m,
         .GetStaticIntField c f a,
         .CallStaticIntMethod c m [] b] ∧
      (jniCallDoingReflection env s).1 = jint_add a b ∧
      (jniCallDoingReflection env s).2.state = s5 ∧
      stateBeforeLast env (jniCallDoingReflection env s).2.trace s = s4 :=
  ⟨_, _, _, _, _, _, _, _, _, _, rfl, rfl, rfl, rfl, rfl, rfl, rfl, rfl, rfl⟩

/-- The final managed state is the replay of the trace from the initial one. -/
theorem state_eq_replay {σ : Type} (env : JNIEnv σ) (s : σ) :
    (jniCallDoingReflection env s).2.state =
      replay env (jniCallDoingReflection env s).2.trace s := rfl

theorem jint_add_left_cancel (a a' b : Int) (ha : InInt32 a) (ha' : InInt32 a')
    (h : jint_add a b = jint_add a' b) : a = a' := by
  have h' : wrap32 (a + b) = wrap32 (a' + b) := h
  unfold wrap32 at h'; unfold InInt32 INT32_MIN INT32_MAX at ha ha'; omega

/-- Replaying calls that each leave `x` unchanged leaves `x` unchanged. -/
theorem replay_of_fixed {σ : Type} (env : JNIEnv σ) (tr : List JNIEvent) (x : σ)
    (h : ∀ e ∈ tr, e.effect env x = x) : replay env tr x = x := by
  induction tr with
  | nil => rfl
  | cons e tl ih =>
    have he : e.effect env x = x := h e (List.mem_cons_self e tl)
    have htl : ∀ e' ∈ tl, e'.effect env x = x := fun e' he' => h e' (List.mem_cons_of_mem e he')
    show replay env tl (e.effect env x) = x
    rw [he]
    exact ih htl

/-- On a sum that is representable the signed `+` is exact in every build. -/
theorem jint_add_under_of_inInt32 (ov : OverflowBehaviour) (a b : Int)
    (h : InInt32 (a + b)) : jint_add_under ov a b = some (a + b) := by
  unfold jint_add_under; rw [if_pos h]

/-- On a sum that is not representable the signed `+` is what the build makes
of it. -/
theorem jint_add_under_of_overflow (ov : OverflowBehaviour) (a b : Int)
    (h : ¬ InInt32 (a + b)) : jint_add_under ov a b = ov (a + b) := by
  unfold jint_add_under; rw [if_neg h]

/-- In a wrapping build the signed `+` is `jint_add`, on every pair. -/
theorem jint_add_under_wrapping (a b : Int) :
    jint_add_under wrapping a b = some (jint_add a b) := by
  by_cases h : InInt32 (a + b)
  · rw [jint_add_under_of_inInt32 wrapping a b h]
    show some (a + b) = some (wrap32 (a + b))
    rw [wrap32_of_inInt32 _ h]
  · rw [jint_add_under_of_overflow wrapping a b h]; rfl

/-- One invocation in a build `ov`: the same five runtime calls, and the signed
`+` of that build on the two values read. -/
theorem run_under_eq {σ : Type} (ov : OverflowBehaviour) (env : JNIEnv σ) (s : σ) :
    ∃ (c : jclass) (f : jfieldID) (m : jmethodID) (a b : jint),
      (jniCallDoingReflectionUnder ov env s).2.trace =
        [.FindClass "org/graalvm/example/JNIExample" c,
         .GetStaticFieldID c "v1" "I" f,
         .GetStaticMethodID c "v2" "()I" m,
         .GetStaticIntField c f a,
         .CallStaticIntMethod c m [] b] ∧
      (∀ ov' : OverflowBehaviour,
        (jniCallDoingReflectionUnder ov' env s).1 = jint_add_under ov' a b) ∧
      (jniCallDoingReflection env s).1 = jint_add a b :=
  ⟨_, _, _, _, _, rfl, fun _ => rfl, rfl⟩

/-- In a wrapping build an invocation returns, on every runtime and state, the
value of the invocation computed with `jint_add`, with the same trace and the
same final state. -/
theorem under_wrapping_eq {σ : Type} (env : JNIEnv σ) (s : σ) :
    (jniCallDoingReflectionUnder wrapping env s).1 = some (jniCallDoingReflection env s).1 ∧
      (jniCallDoingReflectionUnder wrapping env s).2.trace =
        (jniCallDoingReflection env s).2.trace ∧
      (jniCallDoingReflectionUnder wrapping env s).2.state =
        (jniCallDoingReflection env s).2.state := by
  obtain ⟨c, f, m, a, b, -, hval, hplain⟩ := run_under_eq wrapping env s
  refine ⟨?_, rfl, rfl⟩
  rw [hval wrapping, hplain, jint_add_under_wrapping]

/-! ## The result -/

/-- C1: for all 32-bit signed integers `a` and `b`, when the class
`org/graalvm/example/JNIExample` is found (non-null handle `c`), the read of
its static int field yields `a` and the invocation of its static method yields
`b`, the function returns `a + b` computed on `jint`; that is the mathematical
sum whenever the sum is itself a 32-bit signed integer. -/
theorem returns_field_plus_method {σ : Type} (env : JNIEnv σ) (s : σ) (a b : Int)
    (c : jclass) (f : jfieldID) (m : jmethodID)
    (_ha : InInt32 a) (_hb : InInt32 b)
    (_hfound : c ≠ NULL ∧
      JNIEvent.FindClass "org/graalvm/example/JNIExample" c ∈
        (jniCallDoingReflection env s).2.trace)
    (hv1 : JNIEvent.GetStaticIntField c f a ∈ (jniCallDoingReflection env s).2.trace)
    (hv2 : JNIEvent.CallStaticIntMethod c m [] b ∈ (jniCallDoingReflection env s).2.trace) :
    (jniCallDoingReflection env s).1 = jint_add a b ∧
      (InInt32 (a + b) → (jniCallDoingReflection env s).1 = a + b) := by
  obtain ⟨c0, f0, m0, a0, b0, -, htr, hval⟩ := trace_eq env s
  rw [htr] at hv1 hv2
  simp at hv1 hv2
  obtain ⟨-, -, rfl⟩ := hv1
  obtain ⟨-, -, rfl⟩ := hv2
  exact ⟨hval, fun h => hval.trans (wrap32_of_inInt32 _ h)⟩

/-- With `v1 = 3` and `v2()` returning `4` the function returns `7`. -/
theorem returns_field_plus_method_witness :
    (jniCallDoingReflection (mockEnv true 4 0) ⟨3, false⟩).1 = 7 :=
  (returns_field_plus_method (mockEnv true 4 0) ⟨3, false⟩ 3 4 1 7 9
    (by decide) (by decide) (by decide) (by decide) (by decide)).2 (by decide)

/-- C2, amended: for 32-bit signed integers `a` (the value read from the
static field) and `b` (the value `v2()` returns) whose mathematical sum is not
a 32-bit signed integer, the source does not fix the result: it is whatever
the build does with the overflowing signed `v1 + v2`.  In a build where signed
addition wraps, the function returns the sum wrapped to 32-bit two-complement,
which is in range, congruent to `a + b` modulo `2^32`, the only such integer,
equal to `a + b - 2^32` on overflow and to `a + b + 2^32` on underflow, and is
the value of `jint_add`; in a build where signed overflow traps, no value is
returned. -/
theorem overflowing_sum_is_left_to_the_build {σ : Type} (ov : OverflowBehaviour)
    (env : JNIEnv σ) (s : σ) (a b : Int) (c : jclass) (f : jfieldID) (m : jmethodID)
    (ha : InInt32 a) (hb : InInt32 b) (hov : ¬ InInt32 (a + b))
    (hv1 : JNIEvent.GetStaticIntField c f a ∈ (jniCallDoingReflectionUnder ov env s).2.trace)
    (hv2 : JNIEvent.CallStaticIntMethod c m [] b ∈
      (jniCallDoingReflectionUnder ov env s).2.trace) :
    (jniCallDoingReflectionUnder ov env s).1 = ov (a + b) ∧
      (jniCallDoingReflectionUnder wrapping env s).1 = some (wrap32 (a + b)) ∧
      (jniCallDoingReflectionUnder wrapping env s).1 = some (jniCallDoingReflection env s).1 ∧
      (jniCallDoingReflectionUnder trapping env s).1 = none ∧
      InInt32 (wrap32 (a + b)) ∧
      wrap32 (a + b) ≡ a + b [ZMOD 4294967296] ∧
      (∀ r : Int, InInt32 r → r ≡ a + b [ZMOD 4294967296] → r = wrap32 (a + b)) ∧
      (INT32_MAX < a + b → wrap32 (a + b) = a + b - 4294967296) ∧
      (a + b < INT32_MIN → wrap32 (a + b) = a + b + 4294967296) := by
  obtain ⟨c0, f0, m0, a0, b0, htr, hval, hplain⟩ := run_under_eq ov env s
  rw [htr] at hv1 hv2
  simp at hv1 hv2
  obtain ⟨-, -, rfl⟩ := hv1
  obtain ⟨-, -, rfl⟩ := hv2
  have hA : a + b ≤ 2 * INT32_MAX := by
    unfold InInt32 INT32_MIN INT32_MAX at ha hb; unfold INT32_MAX; omega
  have hB : 2 * INT32_MIN ≤ a + b := by
    unfold InInt32 INT32_MIN INT32_MAX at ha hb; unfold INT32_MIN; omega
  have hw : (jniCallDoingReflectionUnder wrapping env s).1 = some (wrap32 (a + b)) := by
    rw [(hval wrapping), jint_add_under_of_overflow wrapping a b hov]; rfl
  refine ⟨?_, hw, ?_, ?_, wrap32_inInt32 _, wrap32_modEq _, ?_, ?_, ?_⟩
  · rw [(hval ov), jint_add_under_of_overflow ov a b hov]
  · rw [hw, hplain]; rfl
  · rw [(hval trapping), jint_add_under_of_overflow trapping a b hov]; rfl
  · intro r hr hmod
    exact inInt32_modEq_unique r (wrap32 (a + b)) hr (wrap32_inInt32 _)
      (hmod.trans (wrap32_modEq _).symm)
  · intro h; exact wrap32_above _ h hA
  · intro h; exact wrap32_below _ h hB

/-- With `v1 = 2147483647` and `v2()` returning `1`, the sum is out of range
and a wrapping build returns `-2147483648`. -/
theorem overflowing_sum_is_left_to_the_build_witness :
    ¬ InInt32 (2147483647 + 1) ∧
      (jniCallDoingReflectionUnder wrapping (mockEnv true 1 0) ⟨2147483647, false⟩).1 =
        some (-2147483648) :=
  ⟨by decide,
   (overflowing_sum_is_left_to_the_build wrapping (mockEnv true 1 0) ⟨2147483647, false⟩
      2147483647 1 1 7 9
      (by decide) (by decide) (by decide) (by decide) (by decide)).2.1⟩

/-- C2 as stated fails: with `v1 = 2147483647` and `v2()` returning `1`, both
32-bit signed integers with a sum out of range, a build in which signed
overflow traps does not return the wrapped sum `-2147483648`; it returns no
value. -/
theorem overflowing_sum_need_not_wrap :
    InInt32 2147483647 ∧ InInt32 1 ∧ ¬ InInt32 (2147483647 + 1) ∧
      wrap32 (2147483647 + 1) = -2147483648 ∧
      (jniCallDoingReflectionUnder trapping (mockEnv true 1 0) ⟨2147483647, false⟩).1 = none ∧
      (jniCallDoingReflectionUnder trapping (mockEnv true 1 0) ⟨2147483647, false⟩).1 ≠
        some (-2147483648) := by
  decide

/-! ## The runtime calls -/

/-- C3: on every call, for every runtime and managed state, the lookups sent
to the runtime are exactly the class `org/graalvm/example/JNIExample`, the
static field `v1` of signature `I` and the static method `v2` of signature
`()I`, in that order; no other name is looked up. -/
theorem lookups_are_exactly_the_three_names {σ : Type} (env : JNIEnv σ) (s : σ) :
    (jniCallDoingReflection env s).2.trace.filterMap JNIEvent.lookup =
      [Lookup.class_ "org/graalvm/example/JNIExample",
       Lookup.field "v1" "I",
       Lookup.method "v2" "()I"] := rfl

/-- C4: no failure of a runtime call is checked or propagated.  For every
runtime and managed state, whatever handles the lookups return (`NULL`
included) and whatever state the calls leave behind, the five runtime calls
are all made, each handle is passed on as returned, the result is the `jint`
sum of what `GetStaticIntField` and `CallStaticIntMethod` return, no call
queries, reports or clears the pending exception, and the outcome does not
depend on the exception entries of the function table. -/
theorem failures_are_not_checked {σ : Type} (env : JNIEnv σ) (s : σ) :
    (∃ (c : jclass) (f : jfieldID) (m : jmethodID) (a b : jint),
      (jniCallDoingReflection env s).2.trace =
        [.FindClass "org/graalvm/example/JNIExample" c,
         .GetStaticFieldID c "v1" "I" f,
         .GetStaticMethodID c "v2" "()I" m,
         .GetStaticIntField c f a,
         .CallStaticIntMethod c m [] b] ∧
      (jniCallDoingReflection env s).1 = jint_add a b) ∧
    (jniCallDoingReflection env s).2.trace.filter JNIEvent.touchesException = [] ∧
    (∀ (chk : σ → Bool × σ) (occ : σ → jthrowable × σ) (dsc clr : σ → σ),
      (jniCallDoingReflection
          { env with ExceptionCheck := chk, ExceptionOccurred := occ,
                     ExceptionDescribe := dsc, ExceptionClear := clr } s).1 =
        (jniCallDoingReflection env s).1 ∧
      (jniCallDoingReflection
          { env with ExceptionCheck := chk, ExceptionOccurred := occ,
                     ExceptionDescribe := dsc, ExceptionClear := clr } s).2.state =
        (jniCallDoingReflection env s).2.state ∧
      (jniCallDoingReflection
          { env with ExceptionCheck := chk, ExceptionOccurred := occ,
                     ExceptionDescribe := dsc, ExceptionClear := clr } s).2.trace =
        (jniCallDoingReflection env s).2.trace) := by
  obtain ⟨c, f, m, a, b, -, htr, hval⟩ := trace_eq env s
  refine ⟨⟨c, f, m, a, b, htr, hval⟩, rfl, ?_⟩
  intro chk occ dsc clr
  exact ⟨rfl, rfl, rfl⟩

/-- C5: for every runtime and managed state, the runtime calls of one
invocation are `FindClass`, `GetStaticFieldID`, `GetStaticMethodID`,
`GetStaticIntField`, `CallStaticIntMethod`, in that order, five in all and
each exactly once. -/
theorem call_sequence_is_fixed {σ : Type} (env : JNIEnv σ) (s : σ) :
    (jniCallDoingReflection env s).2.trace.map JNIEvent.function =
      [JNIFunction.FindClass, JNIFunction.GetStaticFieldID, JNIFunction.GetStaticMethodID,
       JNIFunction.GetStaticIntField, JNIFunction.CallStaticIntMethod] ∧
    (jniCallDoingReflection env s).2.trace.length = 5 ∧
    ((jniCallDoingReflection env s).2.trace.map JNIEvent.function).count
      JNIFunction.FindClass = 1 ∧
    ((jniCallDoingReflection env s).2.trace.map JNIEvent.function).count
      JNIFunction.GetStaticFieldID = 1 ∧
    ((jniCallDoingReflection env s).2.trace.map JNIEvent.function).count
      JNIFunction.GetStaticMethodID = 1 ∧
    ((jniCallDoingReflection env s).2.trace.map JNIEvent.function).count
      JNIFunction.GetStaticIntField = 1 ∧
    ((jniCallDoingReflection env s).2.trace.map JNIEvent.function).count
      JNIFunction.CallStaticIntMethod = 1 := by
  have h : (jniCallDoingReflection env s).2.trace.map JNIEvent.function =
      [JNIFunction.FindClass, JNIFunction.GetStaticFieldID, JNIFunction.GetStaticMethodID,
       JNIFunction.GetStaticIntField, JNIFunction.CallStaticIntMethod] := rfl
  refine ⟨h, rfl, ?_, ?_, ?_, ?_, ?_⟩ <;> rw [h] <;> decide

/-- C8: handles flow unchanged between the runtime calls.  The class handle
`c` returned by `FindClass` is the class argument of the four later calls, the
field ID `f` returned by `GetStaticFieldID` is the one given to
`GetStaticIntField`, the method ID `m` returned by `GetStaticMethodID` is the
one given to `CallStaticIntMethod`, and `CallStaticIntMethod` gets no further
argument. -/
theorem handles_flow_unchanged {σ : Type} (env : JNIEnv σ) (s : σ) :
    ∃ (c : jclass) (f : jfieldID) (m : jmethodID) (a b : jint),
      c = (env.FindClass "org/graalvm/example/JNIExample" s).1 ∧
      f = (env.GetStaticFieldID c "v1" "I"
            (env.FindClass "org/graalvm/example/JNIExample" s).2).1 ∧
      (jniCallDoingReflection env s).2.trace =
        [.FindClass "org/graalvm/example/JNIExample" c,
         .GetStaticFieldID c "v1" "I" f,
         .GetStaticMethodID c "v2" "()I" m,
         .GetStaticIntField c f a,
         .CallStaticIntMethod c m [] b] :=
  ⟨_, _, _, _, _, rfl, rfl, rfl⟩

/-! ## Effects on the managed state -/

/-- C6: the function has no side effect of its own on the managed state.  No
runtime call of the trace writes a static field, the final state is the one
the runtime calls of the trace produce when replayed from the initial state,
the outcome does not depend on the `SetStaticIntField` entry of the function
table, and if each runtime call of the trace leaves the initial state
unchanged then the final state is the initial state. -/
theorem no_side_effect_of_its_own {σ : Type} (env : JNIEnv σ) (s : σ) :
    (jniCallDoingReflection env s).2.trace.filter JNIEvent.writesField = [] ∧
    (jniCallDoingReflection env s).2.state =
      replay env (jniCallDoingReflection env s).2.trace s ∧
    (∀ (w : jclass → jfieldID → jint → σ → σ),
      (jniCallDoingReflection { env with SetStaticIntField := w } s).1 =
        (jniCallDoingReflection env s).1 ∧
      (jniCallDoingReflection { env with SetStaticIntField := w } s).2.state =
        (jniCallDoingReflection env s).2.state) ∧
    ((∀ e ∈ (jniCallDoingReflection env s).2.trace, e.effect env s = s) →
      (jniCallDoingReflection env s).2.state = s ∧
      ∀ (c : jclass) (f : jfieldID),
        fieldValue env c f (jniCallDoingReflection env s).2.state = fieldValue env c f s) := by
  refine ⟨rfl, rfl, fun w => ⟨rfl, rfl⟩, ?_⟩
  intro h
  have hs : (jniCallDoingReflection env s).2.state = s := by
    rw [state_eq_replay]
    exact replay_of_fixed env _ s h
  exact ⟨hs, fun c f => by rw [hs]⟩

/-- In the small runtime where `v2()` leaves the state alone, a call from the
state with `v1 = 3` ends in that same state. -/
theorem no_side_effect_of_its_own_witness :
    (∀ e ∈ (jniCallDoingReflection (mockEnv true 4 0) ⟨3, false⟩).2.trace,
        e.effect (mockEnv true 4 0) ⟨3, false⟩ = ⟨3, false⟩) ∧
      (jniCallDoingReflection (mockEnv true 4 0) ⟨3, false⟩).2.state = ⟨3, false⟩ :=
  ⟨by decide,
   ((no_side_effect_of_its_own (mockEnv true 4 0) ⟨3, false⟩).2.2.2 (by decide)).1⟩

/-- C7: the static field is read before `v2()` is invoked and is not read
again.  Let `c`, `f`, `m` be the handles of the field read and of the
invocation, and `b` the value the invocation returns.  When reading the field
has no effect on the managed state and the value the field holds in the state
in which `v2()` is invoked differs from the value it holds right after the
invocation, the function returns the `jint` sum of the value before and `b`,
which is not the sum of the value after and `b`. -/
theorem field_is_read_before_the_invocation {σ : Type} (env : JNIEnv σ) (s : σ) (a b : Int)
    (c : jclass) (f : jfieldID) (m : jmethodID)
    (hv1 : JNIEvent.GetStaticIntField c f a ∈ (jniCallDoingReflection env s).2.trace)
    (hv2 : JNIEvent.CallStaticIntMethod c m [] b ∈ (jniCallDoingReflection env s).2.trace)
    (hread : ∀ x : σ, (env.GetStaticIntField c f x).2 = x)
    (hbefore : InInt32
      (fieldValue env c f (stateBeforeLast env (jniCallDoingReflection env s).2.trace s)))
    (hafter : InInt32 (fieldValue env c f (jniCallDoingReflection env s).2.state))
    (hchange :
      fieldValue env c f (stateBeforeLast env (jniCallDoingReflection env s).2.trace s) ≠
        fieldValue env c f (jniCallDoingReflection env s).2.state) :
    (jniCallDoingReflection env s).1 =
        jint_add
          (fieldValue env c f (stateBeforeLast env (jniCallDoingReflection env s).2.trace s)) b ∧
      (jniCallDoingReflection env s).1 ≠
        jint_add (fieldValue env c f (jniCallDoingReflection env s).2.state) b ∧
      a = fieldValue env c f (stateBeforeLast env (jniCallDoingReflection env s).2.trace s) := by
  obtain ⟨c0, f0, m0, a0, b0, s1, s2, s3, s4, s5, -, -, -, h4, -, htr, hval, hfin, hpre⟩ :=
    run_steps env s
  rw [htr] at hv1 hv2
  simp at hv1 hv2
  obtain ⟨rfl, rfl, rfl⟩ := hv1
  obtain ⟨-, rfl, rfl⟩ := hv2
  have hs4 : s4 = s3 := by
    have := hread s3
    rw [h4] at this
    exact this
  have ha : fieldValue env c f s4 = a := by
    unfold fieldValue
    rw [hs4, h4]
  rw [hpre, ha] at hbefore hchange ⊢
  refine ⟨hval, ?_, rfl⟩
  intro hneq
  rw [hval] at hneq
  exact hchange (jint_add_left_cancel _ _ _ hbefore hafter hneq)

/-- In the small runtime where `v2()` returns `4` and adds `10` to `v1`, a call
from the state with `v1 = 3` returns `3 + 4 = 7`, while `v1` holds `13`
afterwards. -/
theorem field_is_read_before_the_invocation_witness :
    fieldValue (mockEnv true 4 10) 1 7
        (jniCallDoingReflection (mockEnv true 4 10) ⟨3, false⟩).2.state = 13 ∧
      (jniCallDoingReflection (mockEnv true 4 10) ⟨3, false⟩).1 = jint_add 3 4 ∧
      (jniCallDoingReflection (mockEnv true 4 10) ⟨3, false⟩).1 ≠ jint_add 13 4 :=
  ⟨by decide,
   (field_is_read_before_the_invocation (mockEnv true 4 10) ⟨3, false⟩ 3 4 1 7 9
      (by decide) (by decide) (by intro x; simp [mockEnv]) (by decide) (by decide)
      (by decide)).1,
   (field_is_read_before_the_invocation (mockEnv true 4 10) ⟨3, false⟩ 3 4 1 7 9
      (by decide) (by decide) (by intro x; simp [mockEnv]) (by decide) (by decide)
      (by decide)).2.1⟩

/-! ## The failing runtime, evaluated -/

/-- In the small runtime that does not know the class, every lookup returns
`NULL`; the function passes the null handles on, makes all five calls, returns
`0 + 0`, and leaves the exception pending. -/
theorem null_handles_are_passed_on :
    (jniCallDoingReflection (mockEnv false 4 0) ⟨3, false⟩).2.trace =
        [.FindClass "org/graalvm/example/JNIExample" NULL,
         .GetStaticFieldID NULL "v1" "I" NULL,
         .GetStaticMethodID NULL "v2" "()I" NULL,
         .GetStaticIntField NULL NULL 0,
         .CallStaticIntMethod NULL NULL [] 0] ∧
      (jniCallDoingReflection (mockEnv false 4 0) ⟨3, false⟩).1 = 0 ∧
      (jniCallDoingReflection (mockEnv false 4 0) ⟨3, false⟩).2.state = ⟨3, true⟩ := by
  decide

end JNIExample
